import Mathlib

/-!
Verification of the SnowRail MCP adapter (`src/snowrail-mcp.ts`).

The TypeScript source is shallowly embedded below.  Process-wide environment
variables (`SNOWRAIL_MCP_MODE`, `SNOWRAIL_ENV`, `SNOWRAIL_API_BASE`) become
explicit `Option String` parameters; JavaScript platform builtins that the
code calls behind try/catch or passes through opaquely (`JSON.parse`,
`JSON.stringify`, `fetch`) become function parameters, so the theorems hold
for every behaviour of those builtins.  JavaScript string truthiness
(`if (s)` is false for the empty string) is modelled explicitly, and
JavaScript numbers are modelled as exact rationals.
-/

namespace SnowrailMCP

/-- A JavaScript value as it appears in request/response bodies.  `jundefined`
models the JS `undefined` value (distinct from JSON `null`). -/
inductive JsValue where
  | jundefined : JsValue
  | jnull : JsValue
  | jbool : Bool → JsValue
  | jnum : ℚ → JsValue
  | jstr : String → JsValue
  | jarr : List JsValue → JsValue
  | jobj : List (String × JsValue) → JsValue

/-- Field lookup on a JS object value. -/
def JsValue.getField : JsValue → String → Option JsValue
  | .jobj fields, k => fields.lookup k
  | _, _ => none

/-- JS `a ?? b` on option-valued data (nullish coalescing: only `undefined`
or `null` falls through, the empty string does not). -/
def jsCoalesce {α : Type} (a b : Option α) : Option α :=
  match a with
  | some x => some x
  | none => b

-- ==== MCP modes (core / advanced / internal) ==== --

/-- `const MCP_MODE = (process.env.SNOWRAIL_MCP_MODE as McpMode) ?? "core"`.
The TS cast performs no runtime check, so any string set in the environment
passes through unchanged. -/
def MCP_MODE (envSNOWRAIL_MCP_MODE : Option String) : String :=
  envSNOWRAIL_MCP_MODE.getD "core"

/-- `const isAdvanced = MCP_MODE === "advanced" || MCP_MODE === "internal"`. -/
def isAdvanced (mode : String) : Bool :=
  mode == "advanced" || mode == "internal"

/-- `const isInternal = MCP_MODE === "internal"`. -/
def isInternal (mode : String) : Bool :=
  mode == "internal"

/-- Tool names registered unconditionally (tools 1–10 and 15 in the source). -/
def coreToolNames : List String :=
  [ "snowrail_health"
  , "snowrail_agent_identity"
  , "snowrail_agent_stats"
  , "snowrail_agent_activity"
  , "snowrail_treasury_balance"
  , "snowrail_payroll_execute"
  , "snowrail_payroll_get_by_id"
  , "snowrail_payment_process"
  , "snowrail_treasury_test"
  , "snowrail_facilitator_health"
  , "snowrail_process_a2a" ]

/-- Tool names registered inside `if (isAdvanced) { ... }`. -/
def advancedToolNames : List String :=
  [ "snowrail_facilitator_validate"
  , "snowrail_facilitator_verify"
  , "snowrail_facilitator_settle" ]

/-- Tool names registered inside `if (isInternal) { ... }`. -/
def internalToolNames : List String :=
  [ "snowrail_x402_callback"
  , "snowrail_auth_signup"
  , "snowrail_auth_login"
  , "snowrail_auth_me"
  , "snowrail_dashboard" ]

/-- The registration sequence executed at startup: the core block always
runs, then the `isAdvanced` block, then the `isInternal` block. -/
def registeredToolNames (mode : String) : List String :=
  coreToolNames
    ++ (if isAdvanced mode then advancedToolNames else [])
    ++ (if isInternal mode then internalToolNames else [])

-- ==== Environment resolution ==== --

/-- The process environment variables that `snowrail-mcp.ts` reads for base
URL resolution. -/
structure ProcessEnv where
  SNOWRAIL_ENV : Option String
  SNOWRAIL_API_BASE : Option String

/-- `BASE_URLS`: the fixed environment → URL table.  TS indexing with an
unknown key yields `undefined`, hence the `Option` result. -/
def BASE_URLS (env : String) : Option String :=
  if env = "development" then some "http://localhost:4000"
  else if env = "staging" then some "https://staging-api.snowrail.xyz"
  else if env = "production" then some "https://api.snowrail.xyz"
  else none

/-- `const DEFAULT_ENV = (process.env.SNOWRAIL_ENV as SnowrailEnvironment) ?? "staging"`. -/
def DEFAULT_ENV (cfg : ProcessEnv) : String :=
  cfg.SNOWRAIL_ENV.getD "staging"

/-- `const DEFAULT_BASE_URL = process.env.SNOWRAIL_API_BASE ?? BASE_URLS[DEFAULT_ENV]`. -/
def DEFAULT_BASE_URL (cfg : ProcessEnv) : Option String :=
  jsCoalesce cfg.SNOWRAIL_API_BASE (BASE_URLS (DEFAULT_ENV cfg))

/-- The error text thrown when no base URL can be determined. -/
def baseUrlErrorMsg : String :=
  "SnowRail API base URL not configured. Set SNOWRAIL_ENV or SNOWRAIL_API_BASE."

/-- `resolveBaseUrl(environment?, baseUrlOverride?)`.  The override guard is
`if (baseUrlOverride)` — JS truthiness — so an empty-string override falls
through to environment resolution.  The final guard `if (!url) throw` fires
on `undefined` and on the empty string. -/
def resolveBaseUrl (cfg : ProcessEnv) (environment : Option String)
    (baseUrlOverride : Option String) : Except String String :=
  let fromEnvironment : Except String String :=
    let env := environment.getD (DEFAULT_ENV cfg)
    let url := jsCoalesce (BASE_URLS env) (DEFAULT_BASE_URL cfg)
    match url with
    | none => .error baseUrlErrorMsg
    | some u => if u = "" then .error baseUrlErrorMsg else .ok u
  match baseUrlOverride with
  | some o => if o = "" then fromEnvironment else .ok o
  | none => fromEnvironment

-- ==== Request bridge (snowrailFetch) ==== --

/-- `SnowrailFetchOptions`: the option object taken by `snowrailFetch`. -/
structure SnowrailFetchOptions where
  method : Option String
  headers : List (String × String)
  body : Option JsValue
  environment : Option String
  baseUrlOverride : Option String

/-- Object spread `{ ...base, ...extra }`: keys of `extra` override keys of
`base`; modelled as an association list whose lookup agrees with the JS
object. -/
def mergeHeaders (base extra : List (String × String)) : List (String × String) :=
  base.filter (fun p => extra.all (fun q => q.1 ≠ p.1)) ++ extra

/-- The `RequestInit` value handed to `fetch`: method, headers, and the
serialized body when one is attached. -/
structure RequestInit where
  method : String
  headers : List (String × String)
  body : Option String

/-- Construction of the `RequestInit` in `snowrailFetch`: default method
`GET`, default content type overridable by caller headers, and
`if (body !== undefined && method !== "GET") init.body = JSON.stringify(body)`.
`stringify` stands for the opaque builtin `JSON.stringify`. -/
def buildRequestInit (stringify : JsValue → String)
    (options : SnowrailFetchOptions) : RequestInit :=
  let method := options.method.getD "GET"
  let finalHeaders :=
    mergeHeaders [("Content-Type", "application/json")] options.headers
  let body :=
    match options.body with
    | some b => if method = "GET" then none else some (stringify b)
    | none => none
  ⟨method, finalHeaders, body⟩

/-- What `fetch` resolves to: a status code and the body text read by
`res.text()`. -/
structure HttpResponse where
  status : Nat
  text : String

/-- The envelope `{ url, status, data }` returned by `snowrailFetch`. -/
structure FetchResult where
  url : String
  status : Nat
  data : JsValue

/-- `try { data = text ? JSON.parse(text) : null } catch { data = text }`.
`jsonParse` stands for the opaque builtin `JSON.parse`; a `none` result is a
thrown parse error, caught here and replaced by the raw text. -/
def parseResponseText (jsonParse : String → Option JsValue)
    (text : String) : JsValue :=
  if text = "" then .jnull
  else
    match jsonParse text with
    | some v => v
    | none => .jstr text

/-- `snowrailFetch(path, options)`.  `network` stands for the `fetch` call:
given the full URL and the request init it either resolves to a response or
rejects with a network-level error, which propagates.  A `resolveBaseUrl`
throw likewise propagates, before any network activity. -/
def snowrailFetch (jsonParse : String → Option JsValue)
    (stringify : JsValue → String)
    (network : String → RequestInit → Except String HttpResponse)
    (cfg : ProcessEnv) (path : String)
    (options : SnowrailFetchOptions) : Except String FetchResult := do
  let baseUrl ← resolveBaseUrl cfg options.environment options.baseUrlOverride
  let url := baseUrl ++ path
  let init := buildRequestInit stringify options
  let res ← network url init
  let data := parseResponseText jsonParse res.text
  return ⟨url, res.status, data⟩

-- ==== Tool request bodies ==== --

/-- Validated arguments of the `snowrail_payment_process` tool that shape
its request body (the schema guarantees `amount > 0`; `telephone` and
`description` are optional). -/
structure PaymentProcessArgs where
  recipientEmail : String
  amount : ℚ
  currency : String
  firstName : String
  lastName : String
  telephone : Option String
  addressLine1 : String
  city : String
  state : String
  postalCode : String
  countryCode : String
  description : Option String

/-- JS `Math.round`: round half toward positive infinity. -/
def jsMathRound (q : ℚ) : ℤ :=
  ⌊q + 1 / 2⌋

/-- A JS optional string value: `undefined` when absent. -/
def jsOptStr (s : Option String) : JsValue :=
  match s with
  | some t => .jstr t
  | none => .jundefined

/-- The request body built by the `snowrail_payment_process` handler:
nested `customer`/`mailing_address`/`payment` objects, with
`payment.amount = Math.round(amount * 100)` and
`description ?? "SnowRail MCP payment"`. -/
def paymentProcessBody (a : PaymentProcessArgs) : JsValue :=
  .jobj
    [ ("recipient", .jstr a.recipientEmail)
    , ("amount", .jnum a.amount)
    , ("currency", .jstr a.currency)
    , ("customer", .jobj
        [ ("first_name", .jstr a.firstName)
        , ("last_name", .jstr a.lastName)
        , ("email_address", .jstr a.recipientEmail)
        , ("telephone_number", jsOptStr a.telephone)
        , ("mailing_address", .jobj
            [ ("address_line1", .jstr a.addressLine1)
            , ("city", .jstr a.city)
            , ("state", .jstr a.state)
            , ("postal_code", .jstr a.postalCode)
            , ("country_code", .jstr a.countryCode) ]) ])
    , ("payment", .jobj
        [ ("amount", .jnum (jsMathRound (a.amount * 100) : ℚ))
        , ("currency", .jstr a.currency)
        , ("recipient", .jstr a.recipientEmail)
        , ("description", .jstr (a.description.getD "SnowRail MCP payment")) ]) ]

/-- The request body built by the `snowrail_process_a2a` handler:
`JSON.parse(messagePayload)` behind try/catch with the raw string as
fallback, and `message.agent` attached only when `agentId` is truthy, with
`agent.name` spread in only when `agentName` is truthy. -/
def processA2aBody (jsonParse : String → Option JsValue)
    (messageType messagePayload : String)
    (agentId agentName : Option String) : JsValue :=
  let payload :=
    match jsonParse messagePayload with
    | some v => v
    | none => .jstr messagePayload
  let base : List (String × JsValue) :=
    [("type", .jstr messageType), ("payload", payload)]
  let message :=
    match agentId with
    | some aid =>
        if aid = "" then base
        else
          base ++
            [ ("agent", .jobj
                ([("id", JsValue.jstr aid)] ++
                  (match agentName with
                   | some an => if an = "" then [] else [("name", JsValue.jstr an)]
                   | none => []))) ]
    | none => base
  .jobj [("message", .jobj message)]

-- ==== Theorems ==== --

/-- C1: for every mode value in {core, advanced, internal}, the registered
tool-name sequence is exactly the corresponding tier union: core only;
core plus the three facilitator tools; core plus advanced plus the five
internal tools — no extra tools and none missing. -/
theorem registered_tool_sets_by_mode :
    registeredToolNames "core" = coreToolNames ∧
    registeredToolNames "advanced" =
      coreToolNames ++
        [ "snowrail_facilitator_validate"
        , "snowrail_facilitator_verify"
        , "snowrail_facilitator_settle" ] ∧
    registeredToolNames "internal" =
      coreToolNames ++ advancedToolNames ++
        [ "snowrail_x402_callback"
        , "snowrail_auth_signup"
        , "snowrail_auth_login"
        , "snowrail_auth_me"
        , "snowrail_dashboard" ] :=
  ⟨rfl, rfl, rfl⟩

/-- C10: for every mode-configuration value other than exactly `advanced`
or `internal` (including unset and arbitrary unrecognized strings), the
registered tool list degrades to exactly the core tier. -/
theorem unrecognized_mode_core_only (envVar : Option String)
    (h1 : envVar ≠ some "advanced") (h2 : envVar ≠ some "internal") :
    registeredToolNames (MCP_MODE envVar) = coreToolNames := by
  cases envVar with
  | none => rfl
  | some s =>
      have hs1 : s ≠ "advanced" := fun h => h1 (by rw [h])
      have hs2 : s ≠ "internal" := fun h => h2 (by rw [h])
      simp [registeredToolNames, MCP_MODE, isAdvanced, isInternal, hs1, hs2]

/-- Witness for C10 at the concrete configuration string `"banana"`. -/
theorem unrecognized_mode_core_only_witness :
    registeredToolNames (MCP_MODE (some "banana")) = coreToolNames :=
  unrecognized_mode_core_only (some "banana") (by decide) (by decide)

/-- C3 counterexample: the claim asserts every supplied override string is
returned, but the override guard is JS truthiness — with the override `""`
supplied, `resolveBaseUrl` returns the environment table entry instead of
the override. -/
theorem empty_override_not_returned :
    resolveBaseUrl ⟨none, none⟩ (some "production") (some "")
        = .ok "https://api.snowrail.xyz" ∧
    resolveBaseUrl ⟨none, none⟩ (some "production") (some "") ≠ .ok "" := by
  refine ⟨rfl, fun h => ?_⟩
  have h2 : "https://api.snowrail.xyz" = "" := Except.ok.inj h
  exact absurd h2 (by decide)

/-- C3 amended: for every call supplying a nonempty base-URL override, the
returned base URL equals that override, regardless of the environment
argument and of the process-wide environment configuration. -/
theorem nonempty_override_wins (cfg : ProcessEnv) (environment : Option String)
    (o : String) (h : o ≠ "") :
    resolveBaseUrl cfg environment (some o) = .ok o := by
  simp [resolveBaseUrl, h]

/-- Witness for the amended C3 at a concrete override with every competing
configuration source set. -/
theorem nonempty_override_wins_witness :
    resolveBaseUrl ⟨some "production", some "https://configured.example"⟩
        (some "development") (some "https://override.example")
      = .ok "https://override.example" :=
  nonempty_override_wins ⟨some "production", some "https://configured.example"⟩
    (some "development") "https://override.example" (by decide)

/-- C4: for every valid environment name with no override the resolved base
URL is the fixed table entry, for every process configuration; and with no
environment argument, no override and no process default environment, the
result is the fixed staging URL. -/
theorem fixed_table_and_default_resolution (cfg : ProcessEnv) :
    resolveBaseUrl cfg (some "development") none = .ok "http://localhost:4000" ∧
    resolveBaseUrl cfg (some "staging") none = .ok "https://staging-api.snowrail.xyz" ∧
    resolveBaseUrl cfg (some "production") none = .ok "https://api.snowrail.xyz" ∧
    (cfg.SNOWRAIL_ENV = none →
      resolveBaseUrl cfg none none = .ok "https://staging-api.snowrail.xyz") := by
  refine ⟨rfl, rfl, rfl, fun h => ?_⟩
  simp [resolveBaseUrl, DEFAULT_ENV, h, BASE_URLS, jsCoalesce]

/-- Witness for C4 at the empty process configuration. -/
theorem fixed_table_and_default_resolution_witness :
    resolveBaseUrl ⟨none, none⟩ none none
      = .ok "https://staging-api.snowrail.xyz" :=
  (fixed_table_and_default_resolution ⟨none, none⟩).2.2.2 rfl

/-- C2: whenever the underlying `fetch` resolves to a response — whatever
its status code, 4xx and 5xx included — `snowrailFetch` returns normally
with `{url, status, data}`; and when `fetch` rejects with a network-level
error, that error propagates as the invocation failure. -/
theorem bridge_surfaces_every_status (jsonParse : String → Option JsValue)
    (stringify : JsValue → String) (cfg : ProcessEnv) (path : String)
    (options : SnowrailFetchOptions) (resp : HttpResponse) (baseUrl : String)
    (hres : resolveBaseUrl cfg options.environment options.baseUrlOverride
      = .ok baseUrl) :
    snowrailFetch jsonParse stringify (fun _ _ => .ok resp) cfg path options
        = .ok ⟨baseUrl ++ path, resp.status, parseResponseText jsonParse resp.text⟩ ∧
    (∀ e : String,
      snowrailFetch jsonParse stringify (fun _ _ => .error e) cfg path options
        = .error e) := by
  constructor
  · simp [snowrailFetch, hres]
    rfl
  · intro e
    simp [snowrailFetch, hres]
    rfl

/-- Witness for C2 at a concrete 500 response. -/
theorem bridge_surfaces_every_status_witness :
    snowrailFetch (fun _ => none) (fun _ => "") (fun _ _ => .ok ⟨500, "oops"⟩)
        ⟨none, none⟩ "/health" ⟨none, [], none, none, none⟩
      = .ok ⟨"https://staging-api.snowrail.xyz/health", 500, .jstr "oops"⟩ :=
  (bridge_surfaces_every_status (fun _ => none) (fun _ => "") ⟨none, none⟩
    "/health" ⟨none, [], none, none, none⟩ ⟨500, "oops"⟩
    "https://staging-api.snowrail.xyz" rfl).1

/-- C5 counterexample: the claim says a body text that does not parse as
JSON comes back as the exact raw text, but the empty body text — which does
not parse as JSON, so `jsonParse` is the constantly-failing parser here —
yields `null`, not the raw empty string. -/
theorem empty_body_not_raw_text :
    snowrailFetch (fun _ => none) (fun _ => "") (fun _ _ => .ok ⟨200, ""⟩)
        ⟨none, none⟩ "/x" ⟨none, [], none, none, none⟩
      = .ok ⟨"https://staging-api.snowrail.xyz/x", 200, .jnull⟩ ∧
    JsValue.jnull ≠ JsValue.jstr "" := by
  refine ⟨rfl, fun h => ?_⟩
  cases h

/-- C5 amended: for every nonempty response body text, the returned data
field is the JSON-parsed value when the text parses and the exact raw text
string otherwise, and the call itself still returns normally; the empty
body text instead yields `null`. -/
theorem parse_fallback_nonempty (jsonParse : String → Option JsValue)
    (stringify : JsValue → String) (cfg : ProcessEnv) (path : String)
    (options : SnowrailFetchOptions) (resp : HttpResponse) (baseUrl : String)
    (hres : resolveBaseUrl cfg options.environment options.baseUrlOverride
      = .ok baseUrl)
    (hne : resp.text ≠ "") :
    snowrailFetch jsonParse stringify (fun _ _ => .ok resp) cfg path options
      = .ok ⟨baseUrl ++ path, resp.status,
          match jsonParse resp.text with
          | some v => v
          | none => .jstr resp.text⟩ := by
  simp [snowrailFetch, hres, parseResponseText, hne]
  rfl

/-- Witness for the amended C5: a non-JSON body surfaces as the exact raw
string. -/
theorem parse_fallback_nonempty_witness :
    snowrailFetch (fun _ => none) (fun _ => "") (fun _ _ => .ok ⟨200, "plain text"⟩)
        ⟨none, none⟩ "/x" ⟨none, [], none, none, none⟩
      = .ok ⟨"https://staging-api.snowrail.xyz/x", 200, .jstr "plain text"⟩ :=
  parse_fallback_nonempty (fun _ => none) (fun _ => "") ⟨none, none⟩ "/x"
    ⟨none, [], none, none, none⟩ ⟨200, "plain text"⟩
    "https://staging-api.snowrail.xyz" rfl (by decide)

/-- C9: an empty response body yields `data = null` — a value distinct both
from the raw empty string and from any parse-failure string fallback. -/
theorem empty_body_yields_null (jsonParse : String → Option JsValue)
    (stringify : JsValue → String) (cfg : ProcessEnv) (path : String)
    (options : SnowrailFetchOptions) (resp : HttpResponse) (baseUrl : String)
    (hres : resolveBaseUrl cfg options.environment options.baseUrlOverride
      = .ok baseUrl)
    (hempty : resp.text = "") :
    snowrailFetch jsonParse stringify (fun _ _ => .ok resp) cfg path options
        = .ok ⟨baseUrl ++ path, resp.status, .jnull⟩ ∧
    (∀ s : String, JsValue.jnull ≠ JsValue.jstr s) := by
  refine ⟨?_, fun s h => by cases h⟩
  simp [snowrailFetch, hres, parseResponseText, hempty]
  rfl

/-- Witness for C9 at a concrete empty-bodied 204 response. -/
theorem empty_body_yields_null_witness :
    snowrailFetch (fun s => some (.jstr s)) (fun _ => "")
        (fun _ _ => .ok ⟨204, ""⟩) ⟨none, none⟩ "/x" ⟨none, [], none, none, none⟩
      = .ok ⟨"https://staging-api.snowrail.xyz/x", 204, .jnull⟩ :=
  (empty_body_yields_null (fun s => some (.jstr s)) (fun _ => "") ⟨none, none⟩
    "/x" ⟨none, [], none, none, none⟩ ⟨204, ""⟩
    "https://staging-api.snowrail.xyz" rfl rfl).1

/-- C6: for every valid payment-process invocation with decimal amount `a`,
the request body's `payment` sub-object carries the integer amount
`round(a * 100)`; in particular amount `19.99` produces integer amount
`1999`. -/
theorem payment_amount_minor_units :
    (∀ a : PaymentProcessArgs,
      ((paymentProcessBody a).getField "payment").bind
          (fun p => p.getField "amount")
        = some (.jnum (jsMathRound (a.amount * 100) : ℚ))) ∧
    ((paymentProcessBody
        ⟨"r@example.com", 1999 / 100, "USD", "Ada", "Lovelace", none,
          "1 Main St", "Springfield", "IL", "62701", "US", none⟩).getField
        "payment").bind (fun p => p.getField "amount")
      = some (.jnum 1999) := by
  constructor
  · intro a
    rfl
  · have h : jsMathRound ((1999 / 100 : ℚ) * 100) = 1999 := by
      norm_num [jsMathRound]
    show some (JsValue.jnum (jsMathRound ((1999 / 100 : ℚ) * 100) : ℚ))
      = some (.jnum 1999)
    rw [h]
    norm_num

/-- C7: for every invocation of the agent-to-agent messaging tool, the
outgoing body's `message.payload` field is the parsed value when the
payload string parses as JSON and the raw payload string when it does not;
the body is built either way, so the invocation is never rejected. -/
theorem a2a_payload_fallback (jsonParse : String → Option JsValue)
    (messageType messagePayload : String) (agentId agentName : Option String) :
    ((processA2aBody jsonParse messageType messagePayload agentId
        agentName).getField "message").bind (fun m => m.getField "payload")
      = some (match jsonParse messagePayload with
              | some v => v
              | none => .jstr messagePayload) := by
  cases agentId with
  | none => rfl
  | some aid =>
      by_cases h : aid = ""
      · simp only [processA2aBody, h, if_true]
        rfl
      · simp only [processA2aBody, if_neg h]
        rfl

/-- C8: the outgoing request carries a serialized body exactly when a body
value is present and the effective method is not `GET`; when attached, the
body is the JSON serialization of the supplied value. -/
theorem body_attachment_iff (stringify : JsValue → String)
    (options : SnowrailFetchOptions) :
    ((buildRequestInit stringify options).body ≠ none
        ↔ options.body ≠ none ∧ options.method.getD "GET" ≠ "GET") ∧
    (∀ b : JsValue, options.body = some b →
      options.method.getD "GET" ≠ "GET" →
      (buildRequestInit stringify options).body = some (stringify b)) := by
  constructor
  · cases hb : options.body with
    | none => simp [buildRequestInit, hb]
    | some b =>
        by_cases hm : options.method.getD "GET" = "GET" <;>
          simp [buildRequestInit, hb, hm]
  · intro b hb hm
    simp [buildRequestInit, hb, hm]

/-- Witness for C8: a `POST` with a body attaches its serialization. -/
theorem body_attachment_iff_witness :
    (buildRequestInit (fun _ => "null")
        ⟨some "POST", [], some .jnull, none, none⟩).body = some "null" :=
  (body_attachment_iff (fun _ => "null")
    ⟨some "POST", [], some .jnull, none, none⟩).2 .jnull rfl (by decide)

end SnowrailMCP
